import Mathlib

set_option linter.unusedVariables false

/-!
Shallow embedding of the Authentica n8n community node
(`credentials/AuthenticaApi.credentials.ts`): the `AuthenticaApi` credential
type, the helper validators `isE164` / `isEmail`, the request builder
`doRequest`, and the node's `execute` loop.

The host (n8n) boundary is modelled explicitly: a parameter resolver
(`getNodeParameter`), the `continueOnFail` flag, the stored credential
`baseUrl`, and the authenticated HTTP transport.  The transport is a function
from the call sequence number and the fully built request descriptor to
either a JSON response object or an error message; `execute` returns the
list of dispatched requests (the trace, in dispatch order) together with its
outcome.
-/

/-- JavaScript-style values as they appear in resolved node parameters,
request bodies and API responses (`IDataObject` values).  Numbers are
modelled as integers (no claim depends on float behaviour). -/
inductive JValue where
  | null
  | undefined
  | bool (b : Bool)
  | num (n : Int)
  | str (s : String)
  | obj (fields : List (String × JValue))

/-- A JavaScript object (`IDataObject`): fields in insertion order. -/
abbrev Obj := List (String × JValue)

namespace JValue

/-- Strict equality against a string literal (`v === 'lit'`). -/
def strEq : JValue → String → Bool
  | .str t, s => t == s
  | _, _ => false

/-- `v == null` in the `??` / `?.` sense: `null` or `undefined`. -/
def isNullish : JValue → Bool
  | .null => true
  | .undefined => true
  | _ => false

/-- JavaScript truthiness. -/
def truthy : JValue → Bool
  | .null => false
  | .undefined => false
  | .bool b => b
  | .num n => n != 0
  | .str s => s != ""
  | .obj _ => true

/-- View a resolved parameter as a string for the validators' `?? ''`
null-guard: a string value passes through, `null`/`undefined` become `none`.
(The host contract resolves these parameters to strings, so other shapes are
likewise treated as absent.) -/
def asStr : JValue → Option String
  | .str s => some s
  | _ => none

end JValue

/-- Field access on an object (`o.k`); a missing key reads as `undefined`. -/
def objGet (o : Obj) (k : String) : JValue :=
  match o.find? (fun p => p.1 == k) with
  | some p => p.2
  | none => .undefined

/-- Optional-chained field access `v?.k`: `undefined` on nullish or
non-object `v` (property access on a primitive yields `undefined` for these
keys), field lookup on objects. -/
def jGetOpt (v : JValue) (k : String) : JValue :=
  match v with
  | .obj fs => objGet fs k
  | _ => .undefined

/-- The `??` operator: `a ?? b`. -/
def jsNullishCoalesce (a b : JValue) : JValue :=
  if a.isNullish then b else a

/-! ### Validators (`isE164`, `isEmail`)

`function isE164(phone: string) { return /^\+[1-9]\d{6,14}$/.test((phone ?? '').trim()); }`
`function isEmail(v: string) { return /^[^\s@]+@[^\s@]+\.[^\s@]+$/.test((v ?? '').trim()); }`
-/

/-- The JavaScript whitespace class: the characters removed by
`String.prototype.trim` and matched by the regex class `\s`. -/
def isJsWs (c : Char) : Bool :=
  c == ' ' || c == '\t' || c == '\n' || c == '\r' ||
  c.toNat == 11 || c.toNat == 12 || c.toNat == 160 || c.toNat == 0x1680 ||
  (decide (0x2000 ≤ c.toNat) && decide (c.toNat ≤ 0x200a)) ||
  c.toNat == 0x2028 || c.toNat == 0x2029 || c.toNat == 0x202f ||
  c.toNat == 0x205f || c.toNat == 0x3000 || c.toNat == 0xfeff

/-- `String.prototype.trim` on the character list: strip JS whitespace from
both ends. -/
def jsTrimChars (l : List Char) : List Char :=
  ((l.dropWhile isJsWs).reverse.dropWhile isJsWs).reverse

/-- The regex `^\+[1-9]\d{6,14}$` as an anchored matcher on characters. -/
def isE164Chars : List Char → Bool
  | c :: d :: rest =>
    c == '+' && (decide ('1' ≤ d) && decide (d ≤ '9')) &&
    rest.all (fun ch => decide ('0' ≤ ch) && decide (ch ≤ '9')) &&
    (decide (6 ≤ rest.length) && decide (rest.length ≤ 14))
  | _ => false

/-- The character class `[^\s@]`. -/
def emailOk (c : Char) : Bool := !(isJsWs c) && c != '@'

/-- The regex `^[^\s@]+@[^\s@]+\.[^\s@]+$` as an anchored matcher.  The
class `[^\s@]` excludes `'@'`, so the pattern's `@` can only match the first
`'@'` of the input; the tail then matches `[^\s@]+\.[^\s@]+` exactly when it
is all `[^\s@]` and has a `'.'` that is neither its first nor its last
character (the class does contain `'.'`). -/
def isEmailChars (l : List Char) : Bool :=
  match l.dropWhile (fun c => c != '@') with
  | [] => false
  | _ :: t =>
    let a := l.takeWhile (fun c => c != '@')
    !a.isEmpty && a.all emailOk && t.all emailOk &&
      ((t.drop 1).dropLast.contains '.')

/-- `isE164` from the source; `none` models a `null`/`undefined` argument
(`phone ?? ''`). -/
def isE164 (phone : Option String) : Bool :=
  isE164Chars (jsTrimChars (phone.getD "").toList)

/-- `isEmail` from the source; `none` models a `null`/`undefined` argument
(`v ?? ''`). -/
def isEmail (v : Option String) : Bool :=
  isEmailChars (jsTrimChars (v.getD "").toList)

/-! ### The credential definition (`AuthenticaApi`) -/

/-- A value in the declarative credential blocks: either a literal or the
n8n expression `={{$credentials.apiKey}}`, resolved by the host against the
stored credential. -/
inductive CredExpr where
  | lit (s : String)
  | apiKeyRef

/-- Host-side resolution of a credential expression. -/
def resolveCredExpr (apiKey : String) : CredExpr → String
  | .lit s => s
  | .apiKeyRef => apiKey

/-- The `authenticate: IAuthenticateGeneric` block shape. -/
structure AuthGeneric where
  type : String
  headers : List (String × CredExpr)

namespace AuthenticaApi

/-- `name = 'authenticaApi'`. -/
def credName : String := "authenticaApi"

/-- The `authenticate` block of the `AuthenticaApi` credential class. -/
def authenticate : AuthGeneric :=
  { type := "generic"
    headers := [("X-Authorization", .apiKeyRef), ("Accept", .lit "application/json")] }

/-- The headers the host's authentication injection adds to a request, for a
stored API key. -/
def resolvedAuthHeaders (apiKey : String) : List (String × String) :=
  authenticate.headers.map (fun p => (p.1, resolveCredExpr apiKey p.2))

end AuthenticaApi

/-! ### `doRequest` -/

inductive HttpMethod where
  | GET
  | POST
  | DELETE
deriving DecidableEq

/-- The request descriptor handed to
`this.helpers.httpRequestWithAuthentication.call(this, 'authenticaApi', options)`:
the built `IHttpRequestOptions` plus the credential name the host is told to
authenticate with. -/
structure HttpRequest where
  method : HttpMethod
  url : String
  headers : List (String × String)
  jsonFlag : Bool
  body : Option Obj
  credentialName : String

/-- `doRequest` (minus the actual network call): builds the request
descriptor.  `credsBaseUrl` is the stored credential's `baseUrl` resolved as
a string (`""` for a falsy value). -/
def doRequest (credsBaseUrl : String) (method : HttpMethod) (path : String)
    (body : Option Obj) : HttpRequest :=
  let baseUrl := if credsBaseUrl == "" then "https://api.authentica.sa" else credsBaseUrl
  { method := method
    url := baseUrl ++ path
    headers := [("Content-Type", "application/json"), ("Accept", "application/json")]
    jsonFlag := true
    body := if method = .GET then none else body
    credentialName := AuthenticaApi.credName }

/-! ### The node's execution environment and `execute` -/

/-- The host-side context `execute` runs in: the parameter resolver
(`getNodeParameter(name, i)`), the `continueOnFail()` decision, the stored
credential's `baseUrl` (resolved as a string, `""` for a falsy value), the
authenticated transport, and the number of input items.  The transport takes
the call sequence number (how many requests were dispatched before it in
this run) and the request descriptor, and returns the parsed response object
or an error message. -/
structure Env where
  param : String → Nat → JValue
  continueOnFail : Bool
  credsBaseUrl : String
  transport : Nat → HttpRequest → Except String Obj
  items : Nat

namespace Env

/-- `this.getNodeParameter(name, i, d)`: the fallback applies when the
parameter resolves to `undefined`. -/
def paramD (env : Env) (name : String) (i : Nat) (d : JValue) : JValue :=
  match env.param name i with
  | .undefined => d
  | v => v

/-- `const resource = this.getNodeParameter('resource', 0) as Resource;` -/
def resource (env : Env) : JValue := env.param "resource" 0

/-- `const operation = this.getNodeParameter('operation', 0) as Operation;` -/
def operation (env : Env) : JValue := env.param "operation" 0

/-- `const includeRaw = this.getNodeParameter('includeRaw', 0, false) as boolean;`
used only in the truthiness test `includeRaw && res`. -/
def includeRaw (env : Env) : Bool :=
  (env.paramD "includeRaw" 0 (.bool false)).truthy

end Env

/-- An error thrown inside the per-item `try` block: a validation
`NodeOperationError`, or an error propagated from the transport. -/
inductive ItemErr where
  | opError (msg : String)
  | apiError (msg : String)

/-- `(error as Error).message`. -/
def ItemErr.message : ItemErr → String
  | .opError m => m
  | .apiError m => m

/-- The `NodeOperationError` message for a failed phone check. -/
def phoneErrMsg : String := "Phone must be E.164, e.g. +9665XXXXXXX"

/-- The `NodeOperationError` message for a failed email check. -/
def emailErrMsg : String := "Email is not valid"

/-- `if (includeRaw && res) out.raw = res;` for a branch that received the
response `res` (a response object is always truthy). -/
def withRaw (includeRaw : Bool) (res : Obj) (out : Obj) : Obj :=
  if includeRaw then out ++ [("raw", JValue.obj res)] else out

/-- The balance extraction of the `getBalance` branch:
`const data = (res.data as IDataObject) ?? res;`
`const balance = (data?.balance as number | undefined) ?? (data?.data as IDataObject)?.balance;` -/
def extractBalance (res : Obj) : JValue :=
  let data := jsNullishCoalesce (objGet res "data") (JValue.obj res)
  jsNullishCoalesce (jGetOpt data "balance") (jGetOpt (jGetOpt data "data") "balance")

/-- The body of the per-item `try` block for item `i`, when `c` requests
were dispatched before it in this run: the requests it dispatches (in
order), and its outcome — the output object `out` or the thrown error. -/
def processItem (env : Env) (c i : Nat) : List HttpRequest × Except ItemErr Obj :=
  if env.resource.strEq "otp" && env.operation.strEq "send" then
    let method := env.param "otpMethod" i
    let phone := env.paramD "phone" i (.str "")
    let email := env.paramD "email" i (.str "")
    if !(method.strEq "email") && !(isE164 phone.asStr) then
      ([], .error (.opError phoneErrMsg))
    else if method.strEq "email" && !(isEmail email.asStr) then
      ([], .error (.opError emailErrMsg))
    else
      let body : Obj :=
        if method.strEq "email" then [("method", method), ("email", email)]
        else [("method", method), ("phone", phone)]
      let req := doRequest env.credsBaseUrl .POST "/api/v2/send-otp" (some body)
      match env.transport c req with
      | .ok res => ([req], .ok (withRaw env.includeRaw res [("success", JValue.bool true)]))
      | .error msg => ([req], .error (.apiError msg))
  else if env.resource.strEq "otp" && env.operation.strEq "verify" then
    let verifyWith := env.param "verifyWith" i
    let otp := env.param "otp" i
    if verifyWith.strEq "email" then
      let vEmail := env.param "verifyEmail" i
      if !(isEmail vEmail.asStr) then
        ([], .error (.opError emailErrMsg))
      else
        let req := doRequest env.credsBaseUrl .POST "/api/v2/verify-otp"
          (some [("otp", otp), ("email", vEmail)])
        match env.transport c req with
        | .ok res => ([req], .ok (withRaw env.includeRaw res [("verified", JValue.bool true)]))
        | .error msg => ([req], .error (.apiError msg))
    else
      let vPhone := env.param "verifyPhone" i
      if !(isE164 vPhone.asStr) then
        ([], .error (.opError phoneErrMsg))
      else
        let req := doRequest env.credsBaseUrl .POST "/api/v2/verify-otp"
          (some [("otp", otp), ("phone", vPhone)])
        match env.transport c req with
        | .ok res => ([req], .ok (withRaw env.includeRaw res [("verified", JValue.bool true)]))
        | .error msg => ([req], .error (.apiError msg))
  else if env.resource.strEq "account" && env.operation.strEq "getBalance" then
    let req := doRequest env.credsBaseUrl .GET "/api/v2/balance" none
    match env.transport c req with
    | .ok res => ([req], .ok (withRaw env.includeRaw res [("balance", extractBalance res)]))
    | .error msg => ([req], .error (.apiError msg))
  else
    ([], .ok [])

/-- `new NodeApiError(this.getNode(), error as JsonObject, { itemIndex: i })`. -/
structure NodeApiError where
  wrapped : ItemErr
  itemIndex : Nat

/-- One entry of `returnData` (`INodeExecutionData`). -/
structure OutRecord where
  json : Obj
  pairedItem : Option Nat

/-- The record pushed for a captured error on item `i`:
`{ json: { error: (error as Error).message }, pairedItem: { item: i } }`. -/
def errRecord (i : Nat) (e : ItemErr) : OutRecord :=
  ⟨[("error", JValue.str e.message)], some i⟩

/-- The `for` loop of `execute`: `i` is the current item index, `n` the
number of items still to process, `trace` the requests dispatched so far and
`acc` the `returnData` built so far. -/
def executeLoop (env : Env) :
    Nat → Nat → List HttpRequest → List OutRecord →
    List HttpRequest × Except NodeApiError (List OutRecord)
  | _, 0, trace, acc => (trace, .ok acc)
  | i, n + 1, trace, acc =>
    match processItem env trace.length i with
    | (reqs, .ok out) => executeLoop env (i + 1) n (trace ++ reqs) (acc ++ [⟨out, none⟩])
    | (reqs, .error e) =>
      if env.continueOnFail then
        executeLoop env (i + 1) n (trace ++ reqs) (acc ++ [errRecord i e])
      else (trace ++ reqs, .error ⟨e, i⟩)

namespace Authentica

/-- `Authentica.execute`: the dispatched requests in order, and either the
thrown `NodeApiError` or the returned branches (`return [returnData]`). -/
def execute (env : Env) :
    List HttpRequest × Except NodeApiError (List (List OutRecord)) :=
  match executeLoop env 0 env.items [] [] with
  | (t, .ok recs) => (t, .ok [recs])
  | (t, .error e) => (t, .error e)

end Authentica

/-! ### Reference semantics for the loop (used to state the claims) -/

/-- The record item `i` contributes to `returnData` when `c` requests were
dispatched before it and its error (if any) is captured. -/
def mkRecord (env : Env) (c i : Nat) : OutRecord :=
  match (processItem env c i).2 with
  | .ok out => ⟨out, none⟩
  | .error e => errRecord i e

/-- Reference run of `n` items starting at item `i` with `c` requests
already dispatched, capturing every error: the dispatched requests and the
produced records. -/
def runFrom (env : Env) : Nat → Nat → Nat → List HttpRequest × List OutRecord
  | _, _, 0 => ([], [])
  | i, c, n + 1 =>
    let step := processItem env c i
    let rest := runFrom env (i + 1) (c + step.1.length) n
    (step.1 ++ rest.1, mkRecord env c i :: rest.2)

/-- No error occurs in `n` items starting at item `i` with `c` requests
already dispatched. -/
def noItemError (env : Env) : Nat → Nat → Nat → Bool
  | _, _, 0 => true
  | i, c, n + 1 =>
    match processItem env c i with
    | (reqs, .ok _) => noItemError env (i + 1) (c + reqs.length) n
    | (_, .error _) => false

/-- Whether the resolved resource/operation pair selects one of the three
branches of `execute`. -/
def branchMatches (env : Env) : Bool :=
  (env.resource.strEq "otp" && env.operation.strEq "send") ||
  (env.resource.strEq "otp" && env.operation.strEq "verify") ||
  (env.resource.strEq "account" && env.operation.strEq "getBalance")

/-! ### Concrete host contexts (used as witness inputs) -/

/-- Host context: OTP send via SMS with an invalid phone, errors captured. -/
def envSendBadPhone : Env :=
  { param := fun name _ =>
      if name = "resource" then .str "otp"
      else if name = "operation" then .str "send"
      else if name = "otpMethod" then .str "sms"
      else if name = "phone" then .str "12345"
      else .undefined
    continueOnFail := true
    credsBaseUrl := ""
    transport := fun _ _ => .ok []
    items := 1 }

/-- Host context: OTP send via SMS with a valid E.164 phone. -/
def envSendOk : Env :=
  { param := fun name _ =>
      if name = "resource" then .str "otp"
      else if name = "operation" then .str "send"
      else if name = "otpMethod" then .str "sms"
      else if name = "phone" then .str "+96650123456"
      else .undefined
    continueOnFail := true
    credsBaseUrl := ""
    transport := fun _ _ => .ok [("status", .str "ok")]
    items := 1 }

/-- Host context: account balance over two items, transport succeeding with a
nested balance payload. -/
def envBalanceOk : Env :=
  { param := fun name _ =>
      if name = "resource" then .str "account"
      else if name = "operation" then .str "getBalance"
      else .undefined
    continueOnFail := false
    credsBaseUrl := "https://example.test"
    transport := fun _ _ => .ok [("data", .obj [("balance", .num 42)])]
    items := 2 }

/-- Host context: account balance over two items, aborting on the first
transport failure (`continueOnFail` off). -/
def envBalanceFail : Env :=
  { param := fun name _ =>
      if name = "resource" then .str "account"
      else if name = "operation" then .str "getBalance"
      else .undefined
    continueOnFail := false
    credsBaseUrl := ""
    transport := fun _ _ => .error "connection refused"
    items := 2 }


/-! ### Lemmas about trimming -/

theorem jsTrimChars_ws_append {w x : List Char} (h : ∀ c ∈ w, isJsWs c = true) :
    jsTrimChars (w ++ x) = jsTrimChars x := by
  unfold jsTrimChars
  rw [List.dropWhile_append_of_pos h]

theorem jsTrimChars_append_ws {x w : List Char} (h : ∀ c ∈ w, isJsWs c = true) :
    jsTrimChars (x ++ w) = jsTrimChars x := by
  unfold jsTrimChars
  rw [List.dropWhile_append]
  split
  · rename_i hx
    have hw : w.dropWhile isJsWs = [] := List.dropWhile_eq_nil_iff.mpr h
    have hx' : x.dropWhile isJsWs = [] := by
      simpa [List.isEmpty_iff] using hx
    simp [hw, hx']
  · rw [List.reverse_append,
      List.dropWhile_append_of_pos (fun a ha => h a (List.mem_reverse.mp ha))]

theorem jsTrimChars_pad {x w₁ w₂ : List Char}
    (h₁ : ∀ c ∈ w₁, isJsWs c = true) (h₂ : ∀ c ∈ w₂, isJsWs c = true) :
    jsTrimChars (w₁ ++ x ++ w₂) = jsTrimChars x := by
  rw [jsTrimChars_append_ws h₂, jsTrimChars_ws_append h₁]

/-! ### Characterization of the matchers -/

theorem isE164Chars_iff (l : List Char) :
    isE164Chars l = true ↔
      ∃ d rest, l = '+' :: d :: rest ∧ '1' ≤ d ∧ d ≤ '9' ∧
        (∀ ch ∈ rest, '0' ≤ ch ∧ ch ≤ '9') ∧ 6 ≤ rest.length ∧ rest.length ≤ 14 := by
  match l with
  | [] => simp [isE164Chars]
  | [c] => simp [isE164Chars]
  | c :: d :: rest =>
    simp only [isE164Chars, Bool.and_eq_true, decide_eq_true_eq, List.all_eq_true,
      beq_iff_eq, List.cons.injEq]
    constructor
    · rintro ⟨⟨⟨hc, h1, h9⟩, hall⟩, h6, h14⟩
      exact ⟨d, rest, ⟨hc, rfl, rfl⟩, h1, h9,
        fun ch hch => by simpa using hall ch hch, h6, h14⟩
    · rintro ⟨d', rest', ⟨hc, rfl, rfl⟩, h1, h9, hall, h6, h14⟩
      exact ⟨⟨⟨hc, h1, h9⟩, fun ch hch => by simpa using hall ch hch⟩, h6, h14⟩

theorem isEmailChars_iff (l : List Char) :
    isEmailChars l = true ↔
      ∃ a b c : List Char,
        l = a ++ '@' :: (b ++ '.' :: c) ∧ a ≠ [] ∧ b ≠ [] ∧ c ≠ [] ∧
        (∀ ch ∈ a, emailOk ch = true) ∧ (∀ ch ∈ b, emailOk ch = true) ∧
        (∀ ch ∈ c, emailOk ch = true) := by
  constructor
  · intro h
    unfold isEmailChars at h
    rcases hd : l.dropWhile (fun c => c != '@') with _ | ⟨x, t⟩
    · rw [hd] at h; simp at h
    · rw [hd] at h
      simp only [Bool.and_eq_true, Bool.not_eq_true', List.isEmpty_eq_false,
        List.all_eq_true] at h
      obtain ⟨⟨⟨hne, hA⟩, hT⟩, hdot⟩ := h
      have hx : x = '@' := by
        have h' := List.head?_dropWhile_not (fun c => c != '@') l
        rw [hd] at h'
        simpa using h'
      have hsplit : l = l.takeWhile (fun c => c != '@') ++ (x :: t) := by
        conv_lhs => rw [← List.takeWhile_append_dropWhile (p := fun c => c != '@') (l := l)]
        rw [hd]
      have hmem : '.' ∈ (t.drop 1).dropLast := by
        simpa [List.contains_eq_any_beq, List.any_eq_true, eq_comm] using hdot
      rcases t with _ | ⟨h₀, t₁⟩
      · simp at hmem
      · simp only [List.drop_succ_cons, List.drop_zero] at hmem
        have ht₁ : t₁ ≠ [] := by rintro rfl; simp at hmem
        obtain ⟨u, v, huv⟩ := List.append_of_mem hmem
        obtain ⟨z, hz⟩ : ∃ z, t₁.dropLast ++ [z] = t₁ :=
          ⟨t₁.getLast ht₁, List.dropLast_concat_getLast ht₁⟩
        have ht₁eq : t₁ = (u ++ '.' :: v) ++ [z] := by
          conv_lhs => rw [← hz]
          rw [huv]
        refine ⟨l.takeWhile (fun c => c != '@'), h₀ :: u, v ++ [z],
          ?_, ?_, ?_, ?_, ?_, ?_, ?_⟩
        · conv_lhs => rw [hsplit, hx]
          rw [ht₁eq]; simp
        · exact hne
        · simp
        · simp
        · exact hA
        · rw [ht₁eq] at hT
          intro ch hch
          apply hT
          simp only [List.mem_cons] at hch ⊢
          rcases hch with rfl | hch
          · exact Or.inl rfl
          · exact Or.inr (by simp [hch])
        · rw [ht₁eq] at hT
          intro ch hch
          apply hT
          simp only [List.mem_cons] at hch ⊢
          refine Or.inr ?_
          simp only [List.mem_append, List.mem_cons] at hch ⊢
          tauto
  · rintro ⟨a, b, c, rfl, ha, hb, hc, hA, hB, hC⟩
    have hpa : ∀ ch ∈ a, ((fun c => c != '@') ch) = true := by
      intro ch hch
      have := hA ch hch
      simp only [emailOk, Bool.and_eq_true] at this
      exact this.2
    have hdrop : (a ++ '@' :: (b ++ '.' :: c)).dropWhile (fun c => c != '@') =
        '@' :: (b ++ '.' :: c) := by
      rw [List.dropWhile_append_of_pos hpa, List.dropWhile_cons]
      simp
    have htake : (a ++ '@' :: (b ++ '.' :: c)).takeWhile (fun c => c != '@') = a := by
      rw [List.takeWhile_append_of_pos hpa, List.takeWhile_cons]
      simp
    unfold isEmailChars
    rw [hdrop]
    simp only [htake]
    obtain ⟨b₀, b', rfl⟩ := List.exists_cons_of_ne_nil hb
    simp only [Bool.and_eq_true, Bool.not_eq_true', List.isEmpty_eq_false,
      List.all_eq_true]
    refine ⟨⟨⟨ha, hA⟩, ?_⟩, ?_⟩
    · intro ch hch
      simp only [List.cons_append, List.mem_cons, List.mem_append] at hch
      rcases hch with rfl | hch | rfl | hch
      · exact hB _ (List.mem_cons_self _ _)
      · exact hB _ (List.mem_cons_of_mem _ hch)
      · decide
      · exact hC _ hch
    · have : ((b₀ :: b' ++ '.' :: c).drop 1).dropLast = b' ++ ('.' :: c).dropLast := by
        simp only [List.cons_append, List.drop_succ_cons, List.drop_zero]
        exact List.dropLast_append_cons
      rw [this, List.dropLast_cons_of_ne_nil hc]
      simp [List.contains_eq_any_beq]

theorem emailOk_iff {ch : Char} :
    emailOk ch = true ↔ isJsWs ch = false ∧ ch ≠ '@' := by
  simp [emailOk]

/-- C8: `isE164` accepts exactly the strings whose JS-trimmed form is `'+'`,
a digit `1`-`9`, then 6 to 14 digits; `isEmail` accepts exactly the strings
whose trimmed form is `a ++ "@" ++ b ++ "." ++ c` with `a, b, c` nonempty
runs of characters that are neither whitespace nor `'@'`; both reject a
`null`/`undefined` input (treated as `''`), and both tolerate leading and
trailing whitespace. -/
theorem claim8_validators (v : Option String) :
    (isE164 v = true ↔
      ∃ s, v = some s ∧ ∃ d rest, jsTrimChars s.toList = '+' :: d :: rest ∧
        '1' ≤ d ∧ d ≤ '9' ∧ (∀ ch ∈ rest, '0' ≤ ch ∧ ch ≤ '9') ∧
        6 ≤ rest.length ∧ rest.length ≤ 14) ∧
    (isEmail v = true ↔
      ∃ s a b c, v = some s ∧ jsTrimChars s.toList = a ++ '@' :: (b ++ '.' :: c) ∧
        a ≠ [] ∧ b ≠ [] ∧ c ≠ [] ∧
        (∀ ch ∈ a ++ b ++ c, isJsWs ch = false ∧ ch ≠ '@')) ∧
    (isE164 none = false ∧ isEmail none = false) ∧
    (∀ (s : String) (w₁ w₂ : List Char),
      (∀ ch ∈ w₁, isJsWs ch = true) → (∀ ch ∈ w₂, isJsWs ch = true) →
      isE164 (some ⟨w₁ ++ s.toList ++ w₂⟩) = isE164 (some s) ∧
      isEmail (some ⟨w₁ ++ s.toList ++ w₂⟩) = isEmail (some s)) := by
  refine ⟨?_, ?_, ⟨rfl, rfl⟩, ?_⟩
  · cases v with
    | none => simp [isE164, isE164Chars, jsTrimChars]
    | some s =>
      rw [show isE164 (some s) = isE164Chars (jsTrimChars s.toList) from rfl,
        isE164Chars_iff]
      simp only [Option.some.injEq]
      constructor
      · rintro ⟨d, rest, h⟩; exact ⟨s, rfl, d, rest, h⟩
      · rintro ⟨s', rfl, d, rest, h⟩; exact ⟨d, rest, h⟩
  · cases v with
    | none => simp [isEmail, isEmailChars, jsTrimChars]
    | some s =>
      rw [show isEmail (some s) = isEmailChars (jsTrimChars s.toList) from rfl,
        isEmailChars_iff]
      simp only [Option.some.injEq]
      constructor
      · rintro ⟨a, b, c, heq, ha, hb, hc, hA, hB, hC⟩
        refine ⟨s, a, b, c, rfl, heq, ha, hb, hc, ?_⟩
        intro ch hch
        simp only [List.mem_append] at hch
        rcases hch with (hch | hch) | hch
        · exact emailOk_iff.mp (hA ch hch)
        · exact emailOk_iff.mp (hB ch hch)
        · exact emailOk_iff.mp (hC ch hch)
      · rintro ⟨s', a, b, c, rfl, heq, ha, hb, hc, hall⟩
        refine ⟨a, b, c, heq, ha, hb, hc, ?_, ?_, ?_⟩ <;>
          intro ch hch <;>
          exact emailOk_iff.mpr (hall ch (by simp [hch]))
  · intro s w₁ w₂ h₁ h₂
    have key : jsTrimChars (String.toList ⟨w₁ ++ s.toList ++ w₂⟩) = jsTrimChars s.toList :=
      jsTrimChars_pad h₁ h₂
    constructor
    · rw [show isE164 (some (⟨w₁ ++ s.toList ++ w₂⟩ : String)) =
          isE164Chars (jsTrimChars (String.toList ⟨w₁ ++ s.toList ++ w₂⟩)) from rfl, key]
      rfl
    · rw [show isEmail (some (⟨w₁ ++ s.toList ++ w₂⟩ : String)) =
          isEmailChars (jsTrimChars (String.toList ⟨w₁ ++ s.toList ++ w₂⟩)) from rfl, key]
      rfl

/-- Witness for C8 at a concrete input: whitespace padding does not change
the verdict, and the padded number is accepted. -/
theorem claim8_validators_witness :
    isE164 (some ⟨[' '] ++ "+96650123456".toList ++ [' ']⟩) = isE164 (some "+96650123456") :=
  ((claim8_validators (some "+96650123456")).2.2.2 "+96650123456" [' '] [' ']
    (by decide) (by decide)).1

/-! ### Branch dispatch helpers -/

theorem JValue.strEq_iff {v : JValue} {s : String} : v.strEq s = true ↔ v = .str s := by
  cases v <;> simp [JValue.strEq]

/-! ### Branch-shape lemmas for `processItem` -/

theorem processItem_send_phone (env : Env) (c i : Nat)
    (hres : env.resource = .str "otp") (hop : env.operation = .str "send")
    (hm : (env.param "otpMethod" i).strEq "email" = false)
    (hv : isE164 (env.paramD "phone" i (.str "")).asStr = true) :
    processItem env c i =
      match env.transport c (doRequest env.credsBaseUrl .POST "/api/v2/send-otp"
          (some [("method", env.param "otpMethod" i), ("phone", env.paramD "phone" i (.str ""))])) with
      | .ok res =>
        ([doRequest env.credsBaseUrl .POST "/api/v2/send-otp"
            (some [("method", env.param "otpMethod" i), ("phone", env.paramD "phone" i (.str ""))])],
         .ok (withRaw env.includeRaw res [("success", JValue.bool true)]))
      | .error msg =>
        ([doRequest env.credsBaseUrl .POST "/api/v2/send-otp"
            (some [("method", env.param "otpMethod" i), ("phone", env.paramD "phone" i (.str ""))])],
         .error (.apiError msg)) := by
  have h1 : (env.resource.strEq "otp" && env.operation.strEq "send") = true := by
    rw [hres, hop]; decide
  unfold processItem
  simp only [h1, hm, hv]
  simp

theorem processItem_send_phone_err (env : Env) (c i : Nat)
    (hres : env.resource = .str "otp") (hop : env.operation = .str "send")
    (hm : (env.param "otpMethod" i).strEq "email" = false)
    (hv : isE164 (env.paramD "phone" i (.str "")).asStr = false) :
    processItem env c i = ([], .error (.opError phoneErrMsg)) := by
  have h1 : (env.resource.strEq "otp" && env.operation.strEq "send") = true := by
    rw [hres, hop]; decide
  unfold processItem
  simp only [h1, hm, hv]
  simp

theorem processItem_send_email (env : Env) (c i : Nat)
    (hres : env.resource = .str "otp") (hop : env.operation = .str "send")
    (hm : (env.param "otpMethod" i).strEq "email" = true)
    (hv : isEmail (env.paramD "email" i (.str "")).asStr = true) :
    processItem env c i =
      match env.transport c (doRequest env.credsBaseUrl .POST "/api/v2/send-otp"
          (some [("method", env.param "otpMethod" i), ("email", env.paramD "email" i (.str ""))])) with
      | .ok res =>
        ([doRequest env.credsBaseUrl .POST "/api/v2/send-otp"
            (some [("method", env.param "otpMethod" i), ("email", env.paramD "email" i (.str ""))])],
         .ok (withRaw env.includeRaw res [("success", JValue.bool true)]))
      | .error msg =>
        ([doRequest env.credsBaseUrl .POST "/api/v2/send-otp"
            (some [("method", env.param "otpMethod" i), ("email", env.paramD "email" i (.str ""))])],
         .error (.apiError msg)) := by
  have h1 : (env.resource.strEq "otp" && env.operation.strEq "send") = true := by
    rw [hres, hop]; decide
  unfold processItem
  simp only [h1, hm, hv]
  simp

theorem processItem_send_email_err (env : Env) (c i : Nat)
    (hres : env.resource = .str "otp") (hop : env.operation = .str "send")
    (hm : (env.param "otpMethod" i).strEq "email" = true)
    (hv : isEmail (env.paramD "email" i (.str "")).asStr = false) :
    processItem env c i = ([], .error (.opError emailErrMsg)) := by
  have h1 : (env.resource.strEq "otp" && env.operation.strEq "send") = true := by
    rw [hres, hop]; decide
  unfold processItem
  simp only [h1, hm, hv]
  simp

theorem processItem_verify_email (env : Env) (c i : Nat)
    (hres : env.resource = .str "otp") (hop : env.operation = .str "verify")
    (hw : (env.param "verifyWith" i).strEq "email" = true)
    (hv : isEmail (env.param "verifyEmail" i).asStr = true) :
    processItem env c i =
      match env.transport c (doRequest env.credsBaseUrl .POST "/api/v2/verify-otp"
          (some [("otp", env.param "otp" i), ("email", env.param "verifyEmail" i)])) with
      | .ok res =>
        ([doRequest env.credsBaseUrl .POST "/api/v2/verify-otp"
            (some [("otp", env.param "otp" i), ("email", env.param "verifyEmail" i)])],
         .ok (withRaw env.includeRaw res [("verified", JValue.bool true)]))
      | .error msg =>
        ([doRequest env.credsBaseUrl .POST "/api/v2/verify-otp"
            (some [("otp", env.param "otp" i), ("email", env.param "verifyEmail" i)])],
         .error (.apiError msg)) := by
  have h0 : (env.resource.strEq "otp" && env.operation.strEq "send") = false := by
    rw [hres, hop]; decide
  have h1 : (env.resource.strEq "otp" && env.operation.strEq "verify") = true := by
    rw [hres, hop]; decide
  unfold processItem
  simp only [h0, h1, hw, hv]
  simp

theorem processItem_verify_email_err (env : Env) (c i : Nat)
    (hres : env.resource = .str "otp") (hop : env.operation = .str "verify")
    (hw : (env.param "verifyWith" i).strEq "email" = true)
    (hv : isEmail (env.param "verifyEmail" i).asStr = false) :
    processItem env c i = ([], .error (.opError emailErrMsg)) := by
  have h0 : (env.resource.strEq "otp" && env.operation.strEq "send") = false := by
    rw [hres, hop]; decide
  have h1 : (env.resource.strEq "otp" && env.operation.strEq "verify") = true := by
    rw [hres, hop]; decide
  unfold processItem
  simp only [h0, h1, hw, hv]
  simp

theorem processItem_verify_phone (env : Env) (c i : Nat)
    (hres : env.resource = .str "otp") (hop : env.operation = .str "verify")
    (hw : (env.param "verifyWith" i).strEq "email" = false)
    (hv : isE164 (env.param "verifyPhone" i).asStr = true) :
    processItem env c i =
      match env.transport c (doRequest env.credsBaseUrl .POST "/api/v2/verify-otp"
          (some [("otp", env.param "otp" i), ("phone", env.param "verifyPhone" i)])) with
      | .ok res =>
        ([doRequest env.credsBaseUrl .POST "/api/v2/verify-otp"
            (some [("otp", env.param "otp" i), ("phone", env.param "verifyPhone" i)])],
         .ok (withRaw env.includeRaw res [("verified", JValue.bool true)]))
      | .error msg =>
        ([doRequest env.credsBaseUrl .POST "/api/v2/verify-otp"
            (some [("otp", env.param "otp" i), ("phone", env.param "verifyPhone" i)])],
         .error (.apiError msg)) := by
  have h0 : (env.resource.strEq "otp" && env.operation.strEq "send") = false := by
    rw [hres, hop]; decide
  have h1 : (env.resource.strEq "otp" && env.operation.strEq "verify") = true := by
    rw [hres, hop]; decide
  unfold processItem
  simp only [h0, h1, hw, hv]
  simp

theorem processItem_verify_phone_err (env : Env) (c i : Nat)
    (hres : env.resource = .str "otp") (hop : env.operation = .str "verify")
    (hw : (env.param "verifyWith" i).strEq "email" = false)
    (hv : isE164 (env.param "verifyPhone" i).asStr = false) :
    processItem env c i = ([], .error (.opError phoneErrMsg)) := by
  have h0 : (env.resource.strEq "otp" && env.operation.strEq "send") = false := by
    rw [hres, hop]; decide
  have h1 : (env.resource.strEq "otp" && env.operation.strEq "verify") = true := by
    rw [hres, hop]; decide
  unfold processItem
  simp only [h0, h1, hw, hv]
  simp

theorem processItem_balance (env : Env) (c i : Nat)
    (hres : env.resource = .str "account") (hop : env.operation = .str "getBalance") :
    processItem env c i =
      match env.transport c (doRequest env.credsBaseUrl .GET "/api/v2/balance" none) with
      | .ok res =>
        ([doRequest env.credsBaseUrl .GET "/api/v2/balance" none],
         .ok (withRaw env.includeRaw res [("balance", extractBalance res)]))
      | .error msg =>
        ([doRequest env.credsBaseUrl .GET "/api/v2/balance" none],
         .error (.apiError msg)) := by
  have h0 : (env.resource.strEq "otp" && env.operation.strEq "send") = false := by
    rw [hres, hop]; decide
  have h1 : (env.resource.strEq "otp" && env.operation.strEq "verify") = false := by
    rw [hres, hop]; decide
  have h2 : (env.resource.strEq "account" && env.operation.strEq "getBalance") = true := by
    rw [hres, hop]; decide
  unfold processItem
  simp only [h0, h1, h2]
  simp

theorem processItem_nobranch (env : Env) (c i : Nat)
    (h : branchMatches env = false) :
    processItem env c i = ([], .ok []) := by
  simp only [branchMatches, Bool.or_eq_false_iff] at h
  unfold processItem
  simp only [h.1.1, h.1.2, h.2]
  simp

theorem withRaw_eq (b : Bool) (res out : Obj) :
    withRaw b res out = out ++ (if b then [("raw", JValue.obj res)] else []) := by
  cases b <;> simp [withRaw]

theorem branch_dispatch (env : Env) :
    (env.resource = .str "otp" ∧ env.operation = .str "send") ∨
    (env.resource = .str "otp" ∧ env.operation = .str "verify") ∨
    (env.resource = .str "account" ∧ env.operation = .str "getBalance") ∨
    branchMatches env = false := by
  cases hb : branchMatches env with
  | false => exact Or.inr (Or.inr (Or.inr rfl))
  | true =>
    simp only [branchMatches, Bool.or_eq_true, Bool.and_eq_true, JValue.strEq_iff] at hb
    rcases hb with (⟨h1, h2⟩ | ⟨h1, h2⟩) | ⟨h1, h2⟩
    exacts [Or.inl ⟨h1, h2⟩, Or.inr (Or.inl ⟨h1, h2⟩), Or.inr (Or.inr (Or.inl ⟨h1, h2⟩))]

theorem processItem_master (env : Env) (c i : Nat) :
    processItem env c i = ([], .ok []) ∨
    (∃ m, processItem env c i = ([], .error (.opError m))) ∨
    (∃ req, (processItem env c i).1 = [req] ∧ req.credentialName = "authenticaApi" ∧
      ((∃ out, (processItem env c i).2 = .ok out) ∨
       (∃ m, (processItem env c i).2 = .error (.apiError m)))) := by
  rcases branch_dispatch env with ⟨hres, hop⟩ | ⟨hres, hop⟩ | ⟨hres, hop⟩ | hb
  · cases hm : (env.param "otpMethod" i).strEq "email" with
    | false =>
      cases hv : isE164 (env.paramD "phone" i (.str "")).asStr with
      | false => exact Or.inr (Or.inl ⟨_, processItem_send_phone_err env c i hres hop hm hv⟩)
      | true =>
        rw [processItem_send_phone env c i hres hop hm hv]
        cases htr : env.transport c (doRequest env.credsBaseUrl .POST "/api/v2/send-otp"
            (some [("method", env.param "otpMethod" i),
              ("phone", env.paramD "phone" i (.str ""))])) with
        | ok res =>
          exact Or.inr (Or.inr ⟨_, rfl, by simp [doRequest, AuthenticaApi.credName],
            Or.inl ⟨_, rfl⟩⟩)
        | error msg =>
          exact Or.inr (Or.inr ⟨_, rfl, by simp [doRequest, AuthenticaApi.credName],
            Or.inr ⟨_, rfl⟩⟩)
    | true =>
      cases hv : isEmail (env.paramD "email" i (.str "")).asStr with
      | false => exact Or.inr (Or.inl ⟨_, processItem_send_email_err env c i hres hop hm hv⟩)
      | true =>
        rw [processItem_send_email env c i hres hop hm hv]
        cases htr : env.transport c (doRequest env.credsBaseUrl .POST "/api/v2/send-otp"
            (some [("method", env.param "otpMethod" i),
              ("email", env.paramD "email" i (.str ""))])) with
        | ok res =>
          exact Or.inr (Or.inr ⟨_, rfl, by simp [doRequest, AuthenticaApi.credName],
            Or.inl ⟨_, rfl⟩⟩)
        | error msg =>
          exact Or.inr (Or.inr ⟨_, rfl, by simp [doRequest, AuthenticaApi.credName],
            Or.inr ⟨_, rfl⟩⟩)
  · cases hw : (env.param "verifyWith" i).strEq "email" with
    | true =>
      cases hv : isEmail (env.param "verifyEmail" i).asStr with
      | false => exact Or.inr (Or.inl ⟨_, processItem_verify_email_err env c i hres hop hw hv⟩)
      | true =>
        rw [processItem_verify_email env c i hres hop hw hv]
        cases htr : env.transport c (doRequest env.credsBaseUrl .POST "/api/v2/verify-otp"
            (some [("otp", env.param "otp" i), ("email", env.param "verifyEmail" i)])) with
        | ok res =>
          exact Or.inr (Or.inr ⟨_, rfl, by simp [doRequest, AuthenticaApi.credName],
            Or.inl ⟨_, rfl⟩⟩)
        | error msg =>
          exact Or.inr (Or.inr ⟨_, rfl, by simp [doRequest, AuthenticaApi.credName],
            Or.inr ⟨_, rfl⟩⟩)
    | false =>
      cases hv : isE164 (env.param "verifyPhone" i).asStr with
      | false => exact Or.inr (Or.inl ⟨_, processItem_verify_phone_err env c i hres hop hw hv⟩)
      | true =>
        rw [processItem_verify_phone env c i hres hop hw hv]
        cases htr : env.transport c (doRequest env.credsBaseUrl .POST "/api/v2/verify-otp"
            (some [("otp", env.param "otp" i), ("phone", env.param "verifyPhone" i)])) with
        | ok res =>
          exact Or.inr (Or.inr ⟨_, rfl, by simp [doRequest, AuthenticaApi.credName],
            Or.inl ⟨_, rfl⟩⟩)
        | error msg =>
          exact Or.inr (Or.inr ⟨_, rfl, by simp [doRequest, AuthenticaApi.credName],
            Or.inr ⟨_, rfl⟩⟩)
  · rw [processItem_balance env c i hres hop]
    cases htr : env.transport c (doRequest env.credsBaseUrl .GET "/api/v2/balance" none) with
    | ok res =>
      exact Or.inr (Or.inr ⟨_, rfl, by simp [doRequest, AuthenticaApi.credName],
        Or.inl ⟨_, rfl⟩⟩)
    | error msg =>
      exact Or.inr (Or.inr ⟨_, rfl, by simp [doRequest, AuthenticaApi.credName],
        Or.inr ⟨_, rfl⟩⟩)
  · exact Or.inl (processItem_nobranch env c i hb)

/-- C1: for an input item of an OTP operation, the contact identifier is
validated before any HTTP request is dispatched for that item: for `send`
with a non-email method a `NodeOperationError` is raised iff the `phone`
parameter fails the E.164 check, with method email iff the `email` parameter
fails the email check; for `verify` likewise on `verifyPhone` (`verifyWith`
not email) or `verifyEmail` (`verifyWith` email); and whenever such an error
is raised, no HTTP request is made for that item. -/
theorem claim1_validation_before_dispatch (env : Env) (c i : Nat) :
    (env.resource = .str "otp" → env.operation = .str "send" →
      ((∃ m, (processItem env c i).2 = .error (.opError m)) ↔
        (if (env.param "otpMethod" i).strEq "email"
          then isEmail (env.paramD "email" i (.str "")).asStr = false
          else isE164 (env.paramD "phone" i (.str "")).asStr = false))) ∧
    (env.resource = .str "otp" → env.operation = .str "verify" →
      ((∃ m, (processItem env c i).2 = .error (.opError m)) ↔
        (if (env.param "verifyWith" i).strEq "email"
          then isEmail (env.param "verifyEmail" i).asStr = false
          else isE164 (env.param "verifyPhone" i).asStr = false))) ∧
    ((∃ m, (processItem env c i).2 = .error (.opError m)) →
      (processItem env c i).1 = []) := by
  refine ⟨?_, ?_, ?_⟩
  · intro hres hop
    cases hm : (env.param "otpMethod" i).strEq "email" with
    | false =>
      simp only [Bool.false_eq_true, if_false]
      cases hv : isE164 (env.paramD "phone" i (.str "")).asStr with
      | false =>
        rw [processItem_send_phone_err env c i hres hop hm hv]
        simp
      | true =>
        rw [processItem_send_phone env c i hres hop hm hv]
        cases htr : env.transport c (doRequest env.credsBaseUrl .POST "/api/v2/send-otp"
            (some [("method", env.param "otpMethod" i),
              ("phone", env.paramD "phone" i (.str ""))])) <;> simp
    | true =>
      simp only [if_true]
      cases hv : isEmail (env.paramD "email" i (.str "")).asStr with
      | false =>
        rw [processItem_send_email_err env c i hres hop hm hv]
        simp
      | true =>
        rw [processItem_send_email env c i hres hop hm hv]
        cases htr : env.transport c (doRequest env.credsBaseUrl .POST "/api/v2/send-otp"
            (some [("method", env.param "otpMethod" i),
              ("email", env.paramD "email" i (.str ""))])) <;> simp
  · intro hres hop
    cases hw : (env.param "verifyWith" i).strEq "email" with
    | true =>
      simp only [if_true]
      cases hv : isEmail (env.param "verifyEmail" i).asStr with
      | false =>
        rw [processItem_verify_email_err env c i hres hop hw hv]
        simp
      | true =>
        rw [processItem_verify_email env c i hres hop hw hv]
        cases htr : env.transport c (doRequest env.credsBaseUrl .POST "/api/v2/verify-otp"
            (some [("otp", env.param "otp" i), ("email", env.param "verifyEmail" i)])) <;> simp
    | false =>
      simp only [Bool.false_eq_true, if_false]
      cases hv : isE164 (env.param "verifyPhone" i).asStr with
      | false =>
        rw [processItem_verify_phone_err env c i hres hop hw hv]
        simp
      | true =>
        rw [processItem_verify_phone env c i hres hop hw hv]
        cases htr : env.transport c (doRequest env.credsBaseUrl .POST "/api/v2/verify-otp"
            (some [("otp", env.param "otp" i), ("phone", env.param "verifyPhone" i)])) <;> simp
  · intro h
    rcases processItem_master env c i with hM | ⟨m, hM⟩ | ⟨req, h1, _, hrest⟩
    · rw [hM] at h; simp at h
    · simp [hM]
    · rcases h with ⟨m', hm'⟩
      rcases hrest with ⟨out, ho⟩ | ⟨m2, ho⟩ <;> rw [ho] at hm' <;> simp at hm'

theorem claim1_witness :
    (∃ m, (processItem envSendBadPhone 0 0).2 = .error (.opError m)) ∧
    (processItem envSendBadPhone 0 0).1 = [] := by
  have h := claim1_validation_before_dispatch envSendBadPhone 0 0
  have hfail : (∃ m, (processItem envSendBadPhone 0 0).2 = .error (.opError m)) :=
    (h.1 rfl rfl).mpr (by decide)
  exact ⟨hfail, h.2.2 hfail⟩

/-- C2: for an input item that passes validation, the dispatched request is
correctly shaped: `send` issues POST to `baseUrl ++ "/api/v2/send-otp"` with
a JSON body holding `method` and exactly one of `phone` or `email` (by
`otpMethod`); `verify` issues POST to `baseUrl ++ "/api/v2/verify-otp"` with
a body holding `otp` and exactly one of `phone` or `email` (by `verifyWith`);
`getBalance` issues GET to `baseUrl ++ "/api/v2/balance"` with no body; and
`baseUrl` is the credential's `baseUrl`, or `https://api.authentica.sa` when
that value is falsy. -/
theorem claim2_request_shape (env : Env) (c i : Nat) :
    (env.resource = .str "otp" → env.operation = .str "send" →
      (if (env.param "otpMethod" i).strEq "email"
        then isEmail (env.paramD "email" i (.str "")).asStr = true
        else isE164 (env.paramD "phone" i (.str "")).asStr = true) →
      ∃ r, (processItem env c i).1 = [r] ∧ r.method = .POST ∧
        r.url = (if env.credsBaseUrl = "" then "https://api.authentica.sa"
                 else env.credsBaseUrl) ++ "/api/v2/send-otp" ∧
        r.body = some (if (env.param "otpMethod" i).strEq "email"
          then [("method", env.param "otpMethod" i), ("email", env.paramD "email" i (.str ""))]
          else [("method", env.param "otpMethod" i), ("phone", env.paramD "phone" i (.str ""))])) ∧
    (env.resource = .str "otp" → env.operation = .str "verify" →
      (if (env.param "verifyWith" i).strEq "email"
        then isEmail (env.param "verifyEmail" i).asStr = true
        else isE164 (env.param "verifyPhone" i).asStr = true) →
      ∃ r, (processItem env c i).1 = [r] ∧ r.method = .POST ∧
        r.url = (if env.credsBaseUrl = "" then "https://api.authentica.sa"
                 else env.credsBaseUrl) ++ "/api/v2/verify-otp" ∧
        r.body = some (if (env.param "verifyWith" i).strEq "email"
          then [("otp", env.param "otp" i), ("email", env.param "verifyEmail" i)]
          else [("otp", env.param "otp" i), ("phone", env.param "verifyPhone" i)])) ∧
    (env.resource = .str "account" → env.operation = .str "getBalance" →
      ∃ r, (processItem env c i).1 = [r] ∧ r.method = .GET ∧
        r.url = (if env.credsBaseUrl = "" then "https://api.authentica.sa"
                 else env.credsBaseUrl) ++ "/api/v2/balance" ∧
        r.body = none) := by
  refine ⟨?_, ?_, ?_⟩
  · intro hres hop hval
    cases hm : (env.param "otpMethod" i).strEq "email" with
    | false =>
      rw [hm] at hval
      simp only [Bool.false_eq_true, if_false] at hval ⊢
      rw [processItem_send_phone env c i hres hop hm hval]
      cases htr : env.transport c (doRequest env.credsBaseUrl .POST "/api/v2/send-otp"
          (some [("method", env.param "otpMethod" i),
            ("phone", env.paramD "phone" i (.str ""))])) <;>
        exact ⟨_, rfl, rfl, by simp [doRequest], by simp [doRequest]⟩
    | true =>
      rw [hm] at hval
      simp only [if_true] at hval ⊢
      rw [processItem_send_email env c i hres hop hm hval]
      cases htr : env.transport c (doRequest env.credsBaseUrl .POST "/api/v2/send-otp"
          (some [("method", env.param "otpMethod" i),
            ("email", env.paramD "email" i (.str ""))])) <;>
        exact ⟨_, rfl, rfl, by simp [doRequest], by simp [doRequest]⟩
  · intro hres hop hval
    cases hw : (env.param "verifyWith" i).strEq "email" with
    | false =>
      rw [hw] at hval
      simp only [Bool.false_eq_true, if_false] at hval ⊢
      rw [processItem_verify_phone env c i hres hop hw hval]
      cases htr : env.transport c (doRequest env.credsBaseUrl .POST "/api/v2/verify-otp"
          (some [("otp", env.param "otp" i), ("phone", env.param "verifyPhone" i)])) <;>
        exact ⟨_, rfl, rfl, by simp [doRequest], by simp [doRequest]⟩
    | true =>
      rw [hw] at hval
      simp only [if_true] at hval ⊢
      rw [processItem_verify_email env c i hres hop hw hval]
      cases htr : env.transport c (doRequest env.credsBaseUrl .POST "/api/v2/verify-otp"
          (some [("otp", env.param "otp" i), ("email", env.param "verifyEmail" i)])) <;>
        exact ⟨_, rfl, rfl, by simp [doRequest], by simp [doRequest]⟩
  · intro hres hop
    rw [processItem_balance env c i hres hop]
    cases htr : env.transport c (doRequest env.credsBaseUrl .GET "/api/v2/balance" none) <;>
      exact ⟨_, rfl, rfl, by simp [doRequest], by simp [doRequest]⟩

theorem claim2_witness :
    ∃ r, (processItem envSendOk 0 0).1 = [r] ∧ r.method = .POST ∧
      r.url = (if envSendOk.credsBaseUrl = "" then "https://api.authentica.sa"
               else envSendOk.credsBaseUrl) ++ "/api/v2/send-otp" ∧
      r.body = some (if (envSendOk.param "otpMethod" 0).strEq "email"
        then [("method", envSendOk.param "otpMethod" 0),
          ("email", envSendOk.paramD "email" 0 (.str ""))]
        else [("method", envSendOk.param "otpMethod" 0),
          ("phone", envSendOk.paramD "phone" 0 (.str ""))]) :=
  (claim2_request_shape envSendOk 0 0).1 rfl rfl (by decide)

/-- C6: an input item that completes without error is normalized by
operation: `send` yields `{ success: true }`, `verify` `{ verified: true }`,
`getBalance` `{ balance: extracted }`; the full API response is attached
under `raw` exactly when `includeRaw` is truthy and a response was received;
an item matching no branch yields the empty record. -/
theorem claim6_normalization (env : Env) (c i : Nat) (out : Obj)
    (h : (processItem env c i).2 = .ok out) :
    (env.resource = .str "otp" → env.operation = .str "send" →
      ∃ req res, (processItem env c i).1 = [req] ∧ env.transport c req = .ok res ∧
        out = [("success", JValue.bool true)] ++
          (if env.includeRaw then [("raw", JValue.obj res)] else [])) ∧
    (env.resource = .str "otp" → env.operation = .str "verify" →
      ∃ req res, (processItem env c i).1 = [req] ∧ env.transport c req = .ok res ∧
        out = [("verified", JValue.bool true)] ++
          (if env.includeRaw then [("raw", JValue.obj res)] else [])) ∧
    (env.resource = .str "account" → env.operation = .str "getBalance" →
      ∃ req res, (processItem env c i).1 = [req] ∧ env.transport c req = .ok res ∧
        out = [("balance", extractBalance res)] ++
          (if env.includeRaw then [("raw", JValue.obj res)] else [])) ∧
    (branchMatches env = false → out = []) := by
  refine ⟨?_, ?_, ?_, ?_⟩
  · intro hres hop
    cases hm : (env.param "otpMethod" i).strEq "email" with
    | false =>
      cases hv : isE164 (env.paramD "phone" i (.str "")).asStr with
      | false => rw [processItem_send_phone_err env c i hres hop hm hv] at h; simp at h
      | true =>
        rw [processItem_send_phone env c i hres hop hm hv] at h ⊢
        cases htr : env.transport c (doRequest env.credsBaseUrl .POST "/api/v2/send-otp"
            (some [("method", env.param "otpMethod" i),
              ("phone", env.paramD "phone" i (.str ""))])) with
        | ok res =>
          rw [htr] at h
          simp only [Except.ok.injEq] at h
          exact ⟨_, res, by simp [htr], htr, by rw [← h, withRaw_eq]⟩
        | error msg => rw [htr] at h; simp at h
    | true =>
      cases hv : isEmail (env.paramD "email" i (.str "")).asStr with
      | false => rw [processItem_send_email_err env c i hres hop hm hv] at h; simp at h
      | true =>
        rw [processItem_send_email env c i hres hop hm hv] at h ⊢
        cases htr : env.transport c (doRequest env.credsBaseUrl .POST "/api/v2/send-otp"
            (some [("method", env.param "otpMethod" i),
              ("email", env.paramD "email" i (.str ""))])) with
        | ok res =>
          rw [htr] at h
          simp only [Except.ok.injEq] at h
          exact ⟨_, res, by simp [htr], htr, by rw [← h, withRaw_eq]⟩
        | error msg => rw [htr] at h; simp at h
  · intro hres hop
    cases hw : (env.param "verifyWith" i).strEq "email" with
    | false =>
      cases hv : isE164 (env.param "verifyPhone" i).asStr with
      | false => rw [processItem_verify_phone_err env c i hres hop hw hv] at h; simp at h
      | true =>
        rw [processItem_verify_phone env c i hres hop hw hv] at h ⊢
        cases htr : env.transport c (doRequest env.credsBaseUrl .POST "/api/v2/verify-otp"
            (some [("otp", env.param "otp" i), ("phone", env.param "verifyPhone" i)])) with
        | ok res =>
          rw [htr] at h
          simp only [Except.ok.injEq] at h
          exact ⟨_, res, by simp [htr], htr, by rw [← h, withRaw_eq]⟩
        | error msg => rw [htr] at h; simp at h
    | true =>
      cases hv : isEmail (env.param "verifyEmail" i).asStr with
      | false => rw [processItem_verify_email_err env c i hres hop hw hv] at h; simp at h
      | true =>
        rw [processItem_verify_email env c i hres hop hw hv] at h ⊢
        cases htr : env.transport c (doRequest env.credsBaseUrl .POST "/api/v2/verify-otp"
            (some [("otp", env.param "otp" i), ("email", env.param "verifyEmail" i)])) with
        | ok res =>
          rw [htr] at h
          simp only [Except.ok.injEq] at h
          exact ⟨_, res, by simp [htr], htr, by rw [← h, withRaw_eq]⟩
        | error msg => rw [htr] at h; simp at h
  · intro hres hop
    rw [processItem_balance env c i hres hop] at h ⊢
    cases htr : env.transport c (doRequest env.credsBaseUrl .GET "/api/v2/balance" none) with
    | ok res =>
      rw [htr] at h
      simp only [Except.ok.injEq] at h
      exact ⟨_, res, by simp [htr], htr, by rw [← h, withRaw_eq]⟩
    | error msg => rw [htr] at h; simp at h
  · intro hb
    rw [processItem_nobranch env c i hb] at h
    simp only [Except.ok.injEq] at h
    exact h.symm

theorem claim6_witness :
    ∃ req res, (processItem envSendOk 0 0).1 = [req] ∧
      envSendOk.transport 0 req = .ok res ∧
      [("success", JValue.bool true)] = [("success", JValue.bool true)] ++
        (if envSendOk.includeRaw then [("raw", JValue.obj res)] else []) :=
  (claim6_normalization envSendOk 0 0 [("success", JValue.bool true)] rfl).1 rfl rfl

/-- C9: for getBalance the output balance follows the fixed fallback
chain: `data` is the response's `data` field if set, otherwise the response
itself; the balance is `data.balance` if that is set, otherwise
`data.data.balance`; when neither exists the record is
`{ balance: undefined }` and no error is raised. -/
theorem claim9_balance_chain (env : Env) (c i : Nat) (res : Obj)
    (hres : env.resource = .str "account") (hop : env.operation = .str "getBalance")
    (ht : env.transport c (doRequest env.credsBaseUrl .GET "/api/v2/balance" none) = .ok res) :
    (processItem env c i).2 = .ok (withRaw env.includeRaw res
      [("balance",
        (fun data => if (jGetOpt data "balance").isNullish
          then jGetOpt (jGetOpt data "data") "balance"
          else jGetOpt data "balance")
        (if (objGet res "data").isNullish then JValue.obj res else objGet res "data"))]) := by
  rw [processItem_balance env c i hres hop, ht]
  simp [extractBalance, jsNullishCoalesce]

theorem claim9_witness :
    (processItem envBalanceOk 0 0).2 = .ok (withRaw envBalanceOk.includeRaw
      [("data", .obj [("balance", .num 42)])]
      [("balance",
        (fun data => if (jGetOpt data "balance").isNullish
          then jGetOpt (jGetOpt data "data") "balance"
          else jGetOpt data "balance")
        (if (objGet [("data", .obj [("balance", .num 42)])] "data").isNullish
          then JValue.obj [("data", .obj [("balance", .num 42)])]
          else objGet [("data", .obj [("balance", .num 42)])] "data"))]) :=
  claim9_balance_chain envBalanceOk 0 0 [("data", .obj [("balance", .num 42)])] rfl rfl rfl

/-- C10: `resource`, `operation` and `includeRaw` are resolved once at item
index 0 and applied identically to every item, whereas the per-item
parameters (`otpMethod`, `phone`, `email`, `verifyWith`, `verifyPhone`,
`verifyEmail`, `otp`) are resolved at the item's own index: item `i`'s
processing is unchanged under any resolver agreeing at exactly those
places. -/
theorem claim10_param_indices
    (p p' : String → Nat → JValue) (cof : Bool) (base : String)
    (tr : Nat → HttpRequest → Except String Obj) (n : Nat) (c i : Nat)
    (hres : p' "resource" 0 = p "resource" 0)
    (hop : p' "operation" 0 = p "operation" 0)
    (hraw : p' "includeRaw" 0 = p "includeRaw" 0)
    (hitem : ∀ name ∈ ["otpMethod", "phone", "email", "verifyWith",
      "verifyPhone", "verifyEmail", "otp"], p' name i = p name i) :
    processItem ⟨p', cof, base, tr, n⟩ c i = processItem ⟨p, cof, base, tr, n⟩ c i := by
  have h1 := hitem "otpMethod" (by simp)
  have h2 := hitem "phone" (by simp)
  have h3 := hitem "email" (by simp)
  have h4 := hitem "verifyWith" (by simp)
  have h5 := hitem "verifyPhone" (by simp)
  have h6 := hitem "verifyEmail" (by simp)
  have h7 := hitem "otp" (by simp)
  unfold processItem
  dsimp only [Env.resource, Env.operation, Env.includeRaw, Env.paramD]
  rw [hres, hop, hraw, h1, h2, h3, h4, h5, h6, h7]

/-! ### Loop characterization -/

theorem executeLoop_zero (env : Env) (i : Nat) (trace : List HttpRequest)
    (acc : List OutRecord) : executeLoop env i 0 trace acc = (trace, .ok acc) := rfl

theorem executeLoop_succ (env : Env) (i n : Nat) (trace : List HttpRequest)
    (acc : List OutRecord) :
    executeLoop env i (n + 1) trace acc =
      match processItem env trace.length i with
      | (reqs, .ok out) => executeLoop env (i + 1) n (trace ++ reqs) (acc ++ [⟨out, none⟩])
      | (reqs, .error e) =>
        if env.continueOnFail then
          executeLoop env (i + 1) n (trace ++ reqs) (acc ++ [errRecord i e])
        else (trace ++ reqs, .error ⟨e, i⟩) := rfl

theorem runFrom_zero (env : Env) (i c : Nat) : runFrom env i c 0 = ([], []) := rfl

theorem runFrom_succ (env : Env) (i c n : Nat) :
    runFrom env i c (n + 1) =
      ((processItem env c i).1 ++
        (runFrom env (i + 1) (c + (processItem env c i).1.length) n).1,
       mkRecord env c i ::
        (runFrom env (i + 1) (c + (processItem env c i).1.length) n).2) := rfl

theorem runFrom_records_length (env : Env) (n : Nat) :
    ∀ i c, ((runFrom env i c n).2).length = n := by
  induction n with
  | zero => intro i c; rfl
  | succ n ih => intro i c; simp [runFrom_succ, ih]

theorem runFrom_records_get (env : Env) (n : Nat) :
    ∀ k i c, k < n →
      ((runFrom env i c n).2).get? k =
        some (mkRecord env (c + (runFrom env i c k).1.length) (i + k)) := by
  induction n with
  | zero => intro k i c hk; omega
  | succ n ih =>
    intro k i c hk
    cases k with
    | zero => simp [runFrom_succ, runFrom_zero]
    | succ k =>
      have hk' : k < n := by omega
      rw [runFrom_succ]
      simp only [List.get?_cons_succ]
      rw [ih k (i + 1) (c + (processItem env c i).1.length) hk']
      have hlen : (runFrom env i c (k + 1)).1.length =
          (processItem env c i).1.length +
            (runFrom env (i + 1) (c + (processItem env c i).1.length) k).1.length := by
        simp [runFrom_succ]
      rw [hlen]
      congr 2 <;> omega

theorem loop_eq_runFrom (env : Env) (hcof : env.continueOnFail = true) (n : Nat) :
    ∀ i (trace : List HttpRequest) acc,
      executeLoop env i n trace acc =
        (trace ++ (runFrom env i trace.length n).1,
         .ok (acc ++ (runFrom env i trace.length n).2)) := by
  induction n with
  | zero => intro i trace acc; simp [executeLoop_zero, runFrom_zero]
  | succ n ih =>
    intro i trace acc
    rw [executeLoop_succ, runFrom_succ]
    rcases hpr : processItem env trace.length i with ⟨reqs, r⟩
    cases r with
    | ok out =>
      dsimp only
      rw [ih]
      simp [List.length_append, hpr, mkRecord]
    | error e =>
      dsimp only
      rw [hcof, if_pos rfl, ih]
      simp [List.length_append, hpr, mkRecord]

theorem noItemError_zero (env : Env) (i c : Nat) : noItemError env i c 0 = true := rfl

theorem noItemError_succ (env : Env) (i c n : Nat) :
    noItemError env i c (n + 1) =
      match processItem env c i with
      | (reqs, .ok _) => noItemError env (i + 1) (c + reqs.length) n
      | (_, .error _) => false := rfl

theorem loop_eq_runFrom_noerr (env : Env) (n : Nat) :
    ∀ i (trace : List HttpRequest) acc,
      noItemError env i trace.length n = true →
      executeLoop env i n trace acc =
        (trace ++ (runFrom env i trace.length n).1,
         .ok (acc ++ (runFrom env i trace.length n).2)) := by
  induction n with
  | zero => intro i trace acc _; simp [executeLoop_zero, runFrom_zero]
  | succ n ih =>
    intro i trace acc hne
    rw [noItemError_succ] at hne
    rw [executeLoop_succ, runFrom_succ]
    rcases hpr : processItem env trace.length i with ⟨reqs, r⟩
    rw [hpr] at hne
    cases r with
    | ok out =>
      dsimp only
      dsimp only at hne
      rw [ih (i + 1) (trace ++ reqs) _ (by simpa [List.length_append] using hne)]
      simp [List.length_append, hpr, mkRecord]
    | error e => simp at hne

theorem loop_abort (env : Env) (hcof : env.continueOnFail = false) (k : Nat) :
    ∀ n i (trace : List HttpRequest) acc e,
      k < n →
      noItemError env i trace.length k = true →
      (processItem env (trace.length + (runFrom env i trace.length k).1.length) (i + k)).2
        = .error e →
      (executeLoop env i n trace acc).2 = .error ⟨e, i + k⟩ := by
  induction k with
  | zero =>
    intro n i trace acc e hkn hne herr
    cases n with
    | zero => omega
    | succ m =>
      rw [runFrom_zero] at herr
      simp only [List.length_nil, Nat.add_zero] at herr
      rw [executeLoop_succ]
      rcases hpr : processItem env trace.length i with ⟨reqs, r⟩
      rw [hpr] at herr
      cases r with
      | ok out => simp at herr
      | error e' =>
        simp only [Except.error.injEq] at herr
        dsimp only
        rw [hcof]
        simp [herr]
  | succ k ih =>
    intro n i trace acc e hkn hne herr
    cases n with
    | zero => omega
    | succ m =>
      rw [noItemError_succ] at hne
      rw [executeLoop_succ]
      rcases hpr : processItem env trace.length i with ⟨reqs, r⟩
      rw [hpr] at hne
      cases r with
      | error e' => simp at hne
      | ok out =>
        dsimp only at hne ⊢
        have hlen : (runFrom env i trace.length (k + 1)).1.length =
            reqs.length + (runFrom env (i + 1) (trace.length + reqs.length) k).1.length := by
          simp [runFrom_succ, hpr]
        rw [hlen] at herr
        have herr' : (processItem env ((trace ++ reqs).length +
            (runFrom env (i + 1) (trace ++ reqs).length k).1.length) ((i + 1) + k)).2
            = .error e := by
          have h1 : (trace ++ reqs).length = trace.length + reqs.length := by
            simp [List.length_append]
          rw [h1]
          have h2 : trace.length + (reqs.length +
              (runFrom env (i + 1) (trace.length + reqs.length) k).1.length) =
              trace.length + reqs.length +
              (runFrom env (i + 1) (trace.length + reqs.length) k).1.length := by omega
          rw [h2] at herr
          have h3 : (i + 1) + k = i + (k + 1) := by omega
          rw [h3]
          exact herr
        have hne' : noItemError env (i + 1) (trace ++ reqs).length k = true := by
          simpa [List.length_append] using hne
        have := ih m (i + 1) (trace ++ reqs) (acc ++ [⟨out, none⟩]) e (by omega) hne' herr'
        rw [this]
        congr 2
        omega

theorem processItem_reqs_cred (env : Env) (c i : Nat) :
    ∀ r ∈ (processItem env c i).1, r.credentialName = "authenticaApi" := by
  rcases processItem_master env c i with hM | ⟨m, hM⟩ | ⟨req, h1, hc, _⟩
  · rw [hM]; intro r hr; simp at hr
  · rw [hM]; intro r hr; simp at hr
  · rw [h1]; intro r hr
    rw [List.mem_singleton.mp hr]
    exact hc

theorem executeLoop_cred (env : Env) (n : Nat) :
    ∀ i (trace : List HttpRequest) acc,
      (∀ r ∈ trace, r.credentialName = "authenticaApi") →
      ∀ r ∈ (executeLoop env i n trace acc).1, r.credentialName = "authenticaApi" := by
  induction n with
  | zero => intro i trace acc h; simpa [executeLoop_zero] using h
  | succ n ih =>
    intro i trace acc h
    have hall : ∀ r ∈ trace ++ (processItem env trace.length i).1,
        r.credentialName = "authenticaApi" := by
      intro r hr
      rcases List.mem_append.mp hr with hr | hr
      · exact h r hr
      · exact processItem_reqs_cred env trace.length i r hr
    rw [executeLoop_succ]
    rcases hpr : processItem env trace.length i with ⟨reqs, r⟩
    rw [hpr] at hall
    cases r with
    | ok out => exact ih (i + 1) (trace ++ reqs) _ hall
    | error e =>
      dsimp only
      cases hc : env.continueOnFail with
      | true => simp only [if_pos rfl]; exact ih (i + 1) (trace ++ reqs) _ hall
      | false => simpa using hall

theorem execute_eq_loop (env : Env) :
    Authentica.execute env =
      ((executeLoop env 0 env.items [] []).1,
       match (executeLoop env 0 env.items [] []).2 with
       | .ok recs => .ok [recs]
       | .error e => .error e) := by
  unfold Authentica.execute
  rcases h : executeLoop env 0 env.items [] [] with ⟨t, out⟩
  cases out <;> simp

theorem processItem_balance_reqs (env : Env) (c i : Nat)
    (hres : env.resource = .str "account") (hop : env.operation = .str "getBalance") :
    (processItem env c i).1 = [doRequest env.credsBaseUrl .GET "/api/v2/balance" none] := by
  rw [processItem_balance env c i hres hop]
  cases env.transport c (doRequest env.credsBaseUrl .GET "/api/v2/balance" none) <;> rfl

theorem runFrom_balance_trace (env : Env)
    (hres : env.resource = .str "account") (hop : env.operation = .str "getBalance")
    (n : Nat) : ∀ i c, (runFrom env i c n).1 =
      List.replicate n (doRequest env.credsBaseUrl .GET "/api/v2/balance" none) := by
  induction n with
  | zero => intro i c; rfl
  | succ n ih =>
    intro i c
    rw [runFrom_succ, processItem_balance_reqs env c i hres hop, ih]
    simp [List.replicate_succ]

theorem execute_run (env : Env)
    (h : env.continueOnFail = true ∨ noItemError env 0 0 env.items = true) :
    Authentica.execute env =
      ((runFrom env 0 0 env.items).1, .ok [(runFrom env 0 0 env.items).2]) := by
  have hL : executeLoop env 0 env.items [] [] =
      ([] ++ (runFrom env 0 (([] : List HttpRequest)).length env.items).1,
       .ok (([] : List OutRecord) ++ (runFrom env 0 (([] : List HttpRequest)).length env.items).2)) := by
    rcases h with hcof | hne
    · exact loop_eq_runFrom env hcof env.items 0 [] []
    · exact loop_eq_runFrom_noerr env env.items 0 [] [] (by simpa using hne)
  rw [execute_eq_loop env, hL]
  simp

/-- C3: an error on item `j` is handled per the host's continue-on-fail
decision: with `continueOnFail` true the error is captured for that item as
an output record `{ error: message }` with `pairedItem { item: j }` and the
run still produces a record for every item; with `continueOnFail` false (and
items before `j` erroring nowhere) the run aborts with a `NodeApiError`
tagged `itemIndex = j` and returns no output records. -/
theorem claim3_continue_on_fail (env : Env) (j : Nat) (e : ItemErr)
    (hj : j < env.items)
    (he : (processItem env ((runFrom env 0 0 j).1.length) j).2 = .error e) :
    (env.continueOnFail = true →
      ∃ recs, (Authentica.execute env).2 = .ok [recs] ∧ recs.length = env.items ∧
        recs.get? j = some ⟨[("error", JValue.str e.message)], some j⟩) ∧
    (env.continueOnFail = false → noItemError env 0 0 j = true →
      (Authentica.execute env).2 = .error ⟨e, j⟩) := by
  constructor
  · intro hcof
    rw [execute_run env (Or.inl hcof)]
    refine ⟨(runFrom env 0 0 env.items).2, rfl, runFrom_records_length env env.items 0 0, ?_⟩
    rw [runFrom_records_get env env.items j 0 0 hj]
    simp [mkRecord, he, errRecord]
  · intro hcof hne
    have habort := loop_abort env hcof j env.items 0 [] [] e hj (by simpa using hne)
      (by simpa using he)
    rw [execute_eq_loop env]
    rcases hL : executeLoop env 0 env.items [] [] with ⟨t, out⟩
    rw [hL] at habort
    dsimp only at habort ⊢
    rw [habort]
    simp

/-- C4: provided no error escapes (continue-on-fail, or no item errors),
`execute` returns exactly one output branch whose record list has exactly
one record per input item, in input order (record `j` is item `j`'s), and
items whose resource/operation matches no branch still yield a record
(the empty object). -/
theorem claim4_uniform_records (env : Env)
    (h : env.continueOnFail = true ∨ noItemError env 0 0 env.items = true) :
    ∃ recs, (Authentica.execute env).2 = .ok [recs] ∧ recs.length = env.items ∧
      (∀ j, j < env.items →
        recs.get? j = some (mkRecord env ((runFrom env 0 0 j).1.length) j)) ∧
      (branchMatches env = false → ∀ j, j < env.items →
        recs.get? j = some ⟨[], none⟩) := by
  rw [execute_run env h]
  refine ⟨(runFrom env 0 0 env.items).2, rfl, runFrom_records_length env env.items 0 0,
    ?_, ?_⟩
  · intro j hj
    rw [runFrom_records_get env env.items j 0 0 hj]
    simp
  · intro hb j hj
    rw [runFrom_records_get env env.items j 0 0 hj]
    simp [mkRecord, processItem_nobranch env _ j hb]

/-- C5: every dispatched request routes through the host's
authentication-injecting transport with credential name `authenticaApi`,
whose `authenticate` block resolves to setting the `X-Authorization` header
to the stored API key and `Accept` to `application/json`. -/
theorem claim5_authentication (env : Env) (apiKey : String) :
    ((Authentica.execute env).1.all
      (fun r => r.credentialName == AuthenticaApi.credName)) = true ∧
    AuthenticaApi.credName = "authenticaApi" ∧
    AuthenticaApi.resolvedAuthHeaders apiKey =
      [("X-Authorization", apiKey), ("Accept", "application/json")] := by
  refine ⟨?_, rfl, rfl⟩
  rw [execute_eq_loop env]
  rw [List.all_eq_true]
  intro r hr
  simp only [beq_iff_eq]
  exact executeLoop_cred env env.items 0 [] [] (by simp) r hr

/-- C7 (amended): each input item causes at most one HTTP request, with no
retry; in account/getBalance mode, provided the run is not aborted
(continue-on-fail, or no item errors), a run over `n` items issues exactly
`n` separate GET balance requests — the trace is `n` copies of the balance
request, item `j`'s request is call number `j`, and item `j`'s record is
derived from its own call's response, never reused. -/
theorem claim7_request_count (env : Env) :
    (∀ c i, (processItem env c i).1.length ≤ 1) ∧
    (env.resource = .str "account" → env.operation = .str "getBalance" →
      (env.continueOnFail = true ∨ noItemError env 0 0 env.items = true) →
      (Authentica.execute env).1 =
        List.replicate env.items (doRequest env.credsBaseUrl .GET "/api/v2/balance" none) ∧
      (∀ j, j < env.items → (runFrom env 0 0 j).1.length = j) ∧
      (∃ recs, (Authentica.execute env).2 = .ok [recs] ∧
        ∀ j, j < env.items → recs.get? j = some (mkRecord env j j))) := by
  constructor
  · intro c i
    rcases processItem_master env c i with hM | ⟨m, hM⟩ | ⟨req, h1, _, _⟩
    · rw [hM]; simp
    · rw [hM]; simp
    · rw [h1]; simp
  · intro hres hop h
    rw [execute_run env h]
    refine ⟨?_, ?_, ?_⟩
    · exact runFrom_balance_trace env hres hop env.items 0 0
    · intro j hj
      rw [runFrom_balance_trace env hres hop j 0 0]
      simp
    · refine ⟨(runFrom env 0 0 env.items).2, rfl, ?_⟩
      intro j hj
      rw [runFrom_records_get env env.items j 0 0 hj, runFrom_balance_trace env hres hop j 0 0]
      simp

theorem claim3_witness :
    ∃ recs, (Authentica.execute envSendBadPhone).2 = .ok [recs] ∧
      recs.length = envSendBadPhone.items ∧
      recs.get? 0 = some ⟨[("error", JValue.str phoneErrMsg)], some 0⟩ :=
  (claim3_continue_on_fail envSendBadPhone 0 (.opError phoneErrMsg)
    (by decide) rfl).1 rfl

theorem claim4_witness :
    ∃ recs, (Authentica.execute envBalanceOk).2 = .ok [recs] ∧
      recs.length = envBalanceOk.items ∧
      (∀ j, j < envBalanceOk.items →
        recs.get? j = some (mkRecord envBalanceOk ((runFrom envBalanceOk 0 0 j).1.length) j)) ∧
      (branchMatches envBalanceOk = false → ∀ j, j < envBalanceOk.items →
        recs.get? j = some ⟨[], none⟩) :=
  claim4_uniform_records envBalanceOk (Or.inr (by decide))

theorem claim5_witness :
    ((Authentica.execute envSendOk).1.all
      (fun r => r.credentialName == AuthenticaApi.credName)) = true ∧
    AuthenticaApi.credName = "authenticaApi" ∧
    AuthenticaApi.resolvedAuthHeaders "test-api-key" =
      [("X-Authorization", "test-api-key"), ("Accept", "application/json")] :=
  claim5_authentication envSendOk "test-api-key"

theorem claim7_counterexample :
    envBalanceFail.resource = .str "account" ∧
    envBalanceFail.operation = .str "getBalance" ∧
    envBalanceFail.items = 2 ∧
    (Authentica.execute envBalanceFail).1.length ≠ envBalanceFail.items := by
  refine ⟨rfl, rfl, rfl, ?_⟩
  decide

theorem claim7_witness :
    (Authentica.execute envBalanceOk).1 =
      List.replicate envBalanceOk.items
        (doRequest envBalanceOk.credsBaseUrl .GET "/api/v2/balance" none) :=
  ((claim7_request_count envBalanceOk).2 rfl rfl (Or.inr (by decide))).1

theorem claim10_witness :
    processItem ⟨(fun name i => if name = "unrelated" then .str "x"
        else envSendOk.param name i),
      envSendOk.continueOnFail, envSendOk.credsBaseUrl, envSendOk.transport,
      envSendOk.items⟩ 0 0 =
    processItem ⟨envSendOk.param, envSendOk.continueOnFail, envSendOk.credsBaseUrl,
      envSendOk.transport, envSendOk.items⟩ 0 0 :=
  claim10_param_indices envSendOk.param
    (fun name i => if name = "unrelated" then .str "x" else envSendOk.param name i)
    envSendOk.continueOnFail envSendOk.credsBaseUrl envSendOk.transport envSendOk.items 0 0
    rfl rfl rfl (by intro name h; fin_cases h <;> rfl)
